import Mathlib

/-!
Shallow embedding of the KeyRoute regional tunnel broker
(`src/api/deploy/setup-wireguard.sh`, embedded TypeScript service).

Times are JavaScript epoch milliseconds, modelled as `Int`.
`Math.floor(x / b)` on an integer millisecond difference `x` with a positive
literal divisor `b` is exactly `Int` floor division, written `x / b`
(`Int.ediv`, which rounds toward negative infinity for positive divisors).
Monetary/hour quantities are JavaScript floats holding small exact values;
they are modelled as `ℚ`.
-/

namespace KeyRoute

/-- Status of a tunnel record: `'active' | 'expired' | 'closed'`. -/
inductive Status where
  | active
  | expired
  | closed
deriving DecidableEq, Repr

/-- The `REGION` configuration constant; default value of `KEYROUTE_REGION`. -/
def REGION : String := "unknown"

/-- The tunnel record (interface `Tunnel`).  `client_ip` is the final octet of
the `/24` address: the source stores the string `WG_SUBNET ++ "." ++ octet`
with a fixed subnet prefix, so records agree on `client_ip` exactly when the
octets agree.  `agent_id` keeps the possibly-absent value of
`auth.agent_id` (the source's non-null assertion does not change the runtime
value). -/
structure Tunnel where
  id : String
  agent_id : Option String
  region : String
  created_at : Int
  expires_at : Int
  client_private_key : String
  client_public_key : String
  client_ip : Nat
  status : Status
  last_billed_at : Int
deriving DecidableEq, Repr

/-- Response of the keeper's `POST /v1/services/verify` (interface
`VerifyResponse`). -/
structure VerifyResponse where
  valid : Bool
  agent_id : Option String := none
  email : Option String := none
  balance : Option ℚ := none
  cost_per_unit : Option ℚ := none
  can_afford : Option Bool := none
  error : Option String := none
deriving DecidableEq, Repr

/-- Metadata of a usage record. -/
structure UsageMetadata where
  region : String
  tunnel_id : String
  duration_seconds : Int
deriving DecidableEq, Repr

/-- A pending usage record (interface `UsageRecord`); `timestamp` keeps the
millisecond instant whose ISO rendering the source stores. -/
structure UsageRecord where
  agent_id : Option String
  operation : String
  quantity : ℚ
  timestamp : Int
  metadata : UsageMetadata
deriving DecidableEq, Repr

/-- Association list with JavaScript `Map` semantics: `set` replaces an
existing key in place (preserving iteration order) and otherwise appends. -/
def lookupA {α : Type} : List (String × α) → String → Option α
  | [], _ => none
  | (k, v) :: t, k' => if k = k' then some v else lookupA t k'

/-- `Map.set`: replace in place, else append at the end. -/
def setA {α : Type} : List (String × α) → String → α → List (String × α)
  | [], k, v => [(k, v)]
  | (k', v') :: t, k, v => if k' = k then (k, v) :: t else (k', v') :: setA t k v

/-- One cached verification: raw token, cached result, absolute expiry (ms). -/
abbrev TokenCache := List (String × VerifyResponse × Int)

/-- Whole broker state.  `clock` is not a source variable: it records the
`Date.now()` of the latest executed operation so that statements can refer to
"the current time" of an observation point. -/
structure BrokerState where
  tunnels : List (String × Tunnel)
  nextClientIP : Nat
  pendingUsage : List UsageRecord
  tokenCache : TokenCache
  peers : List String
  clock : Int
deriving DecidableEq, Repr

/-- Broker state at process start. -/
def initState : BrokerState :=
  { tunnels := [], nextClientIP := 2, pendingUsage := [], tokenCache := [],
    peers := [], clock := 0 }

/-- Outcome of the single `fetch` to the keeper inside `verifyToken`:
either a transport-level failure (the `catch` branch) or a decoded
`VerifyResponse` body. -/
inductive FetchOutcome where
  | transportError
  | ok (data : VerifyResponse)
deriving DecidableEq, Repr

/-- The cache read in `verifyToken`: a hit requires `cached.expires > Date.now()`. -/
def lookupCache (c : TokenCache) (token : String) (now : Int) : Option VerifyResponse :=
  match lookupA c token with
  | some (r, exp) => if now < exp then some r else none
  | none => none

/-- `TOKEN_CACHE_TTL` in milliseconds. -/
def TOKEN_CACHE_TTL : Int := 60000

/-- `verifyToken`: empty token short-circuits; then the cache is consulted;
otherwise the keeper is called (`fetch` outcome passed in) and only responses
with `valid` set are cached, keyed by the raw token.  Returns the verification
result together with the updated cache. -/
def verifyToken (cache : TokenCache) (token : String) (now : Int)
    (fetch : FetchOutcome) : VerifyResponse × TokenCache :=
  if token = "" then
    ({ valid := false, error := some "No token provided" }, cache)
  else
    match lookupCache cache token now with
    | some r => (r, cache)
    | none =>
      match fetch with
      | .transportError =>
        ({ valid := false, error := some "Authentication service unavailable" }, cache)
      | .ok data =>
        if data.valid then
          (data, setA cache token (data, now + TOKEN_CACHE_TTL))
        else
          (data, cache)

/-- The request's `duration` field as JavaScript sees it: absent
(`undefined`), a non-numeric `NaN`, or a number (the declared type of
`TunnelRequest.duration` is `number`; integral values suffice here). -/
inductive JsDur where
  | undef
  | nan
  | num (n : Int)
deriving DecidableEq, Repr

/-- `Math.max(30, Math.min(body.duration || 300, 3600))`: the `||` replaces
any falsy value (`undefined`, `NaN`, `0`) by 300 before clamping. -/
def effectiveDuration : JsDur → Int
  | .undef => max 30 (min 300 3600)
  | .nan => max 30 (min 300 3600)
  | .num n => if n = 0 then max 30 (min 300 3600) else max 30 (min n 3600)

/-- `costPerHour` used by the GET and DELETE responses. -/
def costPerHour : ℚ := 1 / 10

/-- `auth.cost_per_unit || 0.10` (the `||` also replaces a present `0`). -/
def costPerUnitOr (auth : VerifyResponse) : ℚ :=
  match auth.cost_per_unit with
  | some q => if q = 0 then 1 / 10 else q
  | none => 1 / 10

/-- Kernel peer removal (`wg set <if> peer <pub> remove`): the peer with that
public key no longer exists afterwards. -/
def removePeerFrom (peers : List String) (pub : String) : List String :=
  peers.filter (fun p => p ≠ pub)

/-- Kernel peer installation (`wg set <if> peer <pub> allowed-ips ...`):
a peer is identified by its public key. -/
def addPeerTo (peers : List String) (pub : String) : List String :=
  if pub ∈ peers then peers else peers ++ [pub]

/-- Result of `POST /v1/tunnel`, keeping the response fields the claims
mention (`wireguard_config` and `endpoint` are derived output strings). -/
inductive CreateResult where
  | unauthorized (error : Option String)
  | invalidJson
  | insufficientCredits (balance : Option ℚ) (estimated_cost : ℚ) (cost_per_hour : Option ℚ)
  | created (tunnel_id : String) (region : String) (expires_at : Int) (client_ip : Nat)
deriving DecidableEq, Repr

/-- Handler of `POST /v1/tunnel`.  `token = none` models a missing or
non-`Bearer` Authorization header, `body = none` a JSON parse failure.
`tid`, `priv`, `pub` are the freshly generated tunnel id and key pair and
`addOk` is the success of the `wg set` peer installation (its failure is only
logged; the tunnel record is stored regardless). -/
def createTunnel (st : BrokerState) (token : Option String) (body : Option JsDur)
    (fetch : FetchOutcome) (now : Int) (tid priv pub : String) (addOk : Bool) :
    CreateResult × BrokerState :=
  match token with
  | none => (.unauthorized (some "Unauthorized"), { st with clock := now })
  | some tok =>
    match body with
    | none => (.invalidJson, { st with clock := now })
    | some d =>
      let duration := effectiveDuration d
      let estimatedHours : ℚ := (duration : ℚ) / 3600
      let vc := verifyToken st.tokenCache tok now fetch
      let auth := vc.1
      let st1 := { st with tokenCache := vc.2, clock := now }
      if auth.valid = false then
        (.unauthorized auth.error, st1)
      else if auth.can_afford = some false then
        (.insufficientCredits auth.balance (estimatedHours * costPerUnitOr auth)
          auth.cost_per_unit, st1)
      else
        let clientIP := st.nextClientIP
        let nextIP := if st.nextClientIP + 1 > 254 then 2 else st.nextClientIP + 1
        let expiresAt := now + duration * 1000
        let tun : Tunnel :=
          { id := tid, agent_id := auth.agent_id, region := REGION,
            created_at := now, expires_at := expiresAt,
            client_private_key := priv, client_public_key := pub,
            client_ip := clientIP, status := .active, last_billed_at := now }
        let peers' := if addOk then addPeerTo st.peers pub else st.peers
        let st2 := { st1 with
          tunnels := setA st.tunnels tid tun,
          nextClientIP := nextIP,
          peers := peers' }
        (.created tid REGION expiresAt clientIP, st2)

/-- Result of `GET /v1/tunnel/:id`. -/
inductive GetResult where
  | unauthorized (error : Option String)
  | notFound
  | forbidden
  | ok (tunnel_id : String) (region : String) (status : Status)
      (created_at : Int) (expires_at : Int) (duration_seconds : Int) (cost_usd : ℚ)
deriving DecidableEq, Repr

/-- Handler of `GET /v1/tunnel/:id`.  An owned `active` record with
`expires_at < now` is transitioned to `expired` and its kernel peer removed
before the response is computed. -/
def getTunnel (st : BrokerState) (token : Option String) (fetch : FetchOutcome)
    (now : Int) (tid : String) : GetResult × BrokerState :=
  match token with
  | none => (.unauthorized (some "Unauthorized"), { st with clock := now })
  | some tok =>
    let vc := verifyToken st.tokenCache tok now fetch
    let auth := vc.1
    let st1 := { st with tokenCache := vc.2, clock := now }
    if auth.valid = false then
      (.unauthorized auth.error, st1)
    else
      match lookupA st.tunnels tid with
      | none => (.notFound, st1)
      | some t =>
        if t.agent_id ≠ auth.agent_id then
          (.forbidden, st1)
        else
          let expire := t.status = .active ∧ t.expires_at < now
          let t' := if expire then { t with status := Status.expired } else t
          let peers' := if expire then removePeerFrom st.peers t.client_public_key
                        else st.peers
          let st2 := { st1 with tunnels := setA st.tunnels tid t', peers := peers' }
          let durationSeconds :=
            ((if t'.status = .active then now else t'.expires_at) - t'.created_at) / 1000
          (.ok t'.id t'.region t'.status t'.created_at t'.expires_at durationSeconds
            ((durationSeconds : ℚ) / 3600 * costPerHour), st2)

/-- Result of `DELETE /v1/tunnel/:id`. -/
inductive DeleteResult where
  | unauthorized (error : Option String)
  | notFound
  | forbidden
  | alreadyClosed
  | closedOk (tunnel_id : String) (duration_seconds : Int) (cost_usd : ℚ)
deriving DecidableEq, Repr

/-- Handler of `DELETE /v1/tunnel/:id`: bills the unbilled tail, sets the
record to `closed`, overwrites `expires_at` with the close time and removes
the kernel peer. -/
def deleteTunnel (st : BrokerState) (token : Option String) (fetch : FetchOutcome)
    (now : Int) (tid : String) : DeleteResult × BrokerState :=
  match token with
  | none => (.unauthorized (some "Unauthorized"), { st with clock := now })
  | some tok =>
    let vc := verifyToken st.tokenCache tok now fetch
    let auth := vc.1
    let st1 := { st with tokenCache := vc.2, clock := now }
    if auth.valid = false then
      (.unauthorized auth.error, st1)
    else
      match lookupA st.tunnels tid with
      | none => (.notFound, st1)
      | some t =>
        if t.agent_id ≠ auth.agent_id then
          (.forbidden, st1)
        else if t.status ≠ .active then
          (.alreadyClosed, st1)
        else
          let durationSeconds := (now - t.created_at) / 1000
          let unbilledSeconds := (now - t.last_billed_at) / 1000
          let pending' :=
            if unbilledSeconds > 0 then
              st.pendingUsage ++
                [{ agent_id := t.agent_id, operation := "tunnel_hour",
                   quantity := (unbilledSeconds : ℚ) / 3600, timestamp := now,
                   metadata := { region := REGION, tunnel_id := t.id,
                                 duration_seconds := unbilledSeconds } }]
            else st.pendingUsage
          let t' := { t with status := Status.closed, expires_at := now }
          let st2 := { st1 with
            tunnels := setA st.tunnels tid t',
            pendingUsage := pending',
            peers := removePeerFrom st.peers t.client_public_key }
          (.closedOk t.id durationSeconds ((durationSeconds : ℚ) / 3600 * costPerHour), st2)

/-- Per-tunnel effect of `billActiveTunnels`: an `active` tunnel whose unbilled
delta reaches a whole minute has `last_billed_at` advanced by the billed whole
minutes. -/
def billOne (now : Int) (t : Tunnel) : Tunnel :=
  if t.status = .active ∧ 60 ≤ (now - t.last_billed_at) / 1000 then
    { t with last_billed_at :=
        t.last_billed_at + ((now - t.last_billed_at) / 1000 / 60) * 60000 }
  else t

/-- Usage record pushed for one tunnel by `billActiveTunnels`, when any. -/
def billRec (now : Int) (t : Tunnel) : Option UsageRecord :=
  if t.status = .active ∧ 60 ≤ (now - t.last_billed_at) / 1000 then
    let minutesToBill := (now - t.last_billed_at) / 1000 / 60
    some { agent_id := t.agent_id, operation := "tunnel_hour",
           quantity := (minutesToBill : ℚ) / 60, timestamp := now,
           metadata := { region := REGION, tunnel_id := t.id,
                         duration_seconds := minutesToBill * 60 } }
  else none

/-- Periodic accrual task `billActiveTunnels` (60 s interval). -/
def billActiveTunnels (now : Int) (st : BrokerState) : BrokerState :=
  { st with
    tunnels := st.tunnels.map (fun e => (e.1, billOne now e.2)),
    pendingUsage := st.pendingUsage ++ st.tunnels.filterMap (fun e => billRec now e.2),
    clock := now }

/-- Guard of the cleanup loop body: `active` and past `expires_at`. -/
def needsExpire (now : Int) (t : Tunnel) : Prop :=
  t.status = .active ∧ t.expires_at < now

instance (now : Int) (t : Tunnel) : Decidable (needsExpire now t) :=
  inferInstanceAs (Decidable (_ ∧ _))

/-- Per-tunnel effect of `cleanupExpiredTunnels`. -/
def expireOne (now : Int) (t : Tunnel) : Tunnel :=
  if needsExpire now t then { t with status := Status.expired } else t

/-- Final accrual pushed by `cleanupExpiredTunnels` for one tunnel, when the
remaining unbilled span is positive. -/
def expireRec (now : Int) (t : Tunnel) : Option UsageRecord :=
  if needsExpire now t ∧ 0 < (t.expires_at - t.last_billed_at) / 1000 then
    let remainingSeconds := (t.expires_at - t.last_billed_at) / 1000
    some { agent_id := t.agent_id, operation := "tunnel_hour",
           quantity := (remainingSeconds : ℚ) / 3600, timestamp := now,
           metadata := { region := REGION, tunnel_id := t.id,
                         duration_seconds := remainingSeconds } }
  else none

/-- Lifecycle scan `cleanupExpiredTunnels` (10 s interval): bills the
remaining time of each wall-expired `active` tunnel, marks it `expired` and
removes its kernel peer. -/
def cleanupExpiredTunnels (now : Int) (st : BrokerState) : BrokerState :=
  { st with
    tunnels := st.tunnels.map (fun e => (e.1, expireOne now e.2)),
    pendingUsage := st.pendingUsage ++ st.tunnels.filterMap (fun e => expireRec now e.2),
    peers := (st.tunnels.filterMap (fun e =>
        if needsExpire now e.2 then some e.2.client_public_key else none)).foldl
        removePeerFrom st.peers,
    clock := now }

/-- Result of `GET /v1/tunnels` (summaries omitted fields are derivable). -/
inductive ListResult where
  | unauthorized (error : Option String)
  | ok (agent_id : Option String) (email : Option String) (balance : Option ℚ)
      (tunnels : List Tunnel)
deriving DecidableEq, Repr

/-- Handler of `GET /v1/tunnels`: read-only over tunnel records; only the
verification cache (and the clock) can change. -/
def listTunnels (st : BrokerState) (token : Option String) (fetch : FetchOutcome)
    (now : Int) : ListResult × BrokerState :=
  match token with
  | none => (.unauthorized (some "Unauthorized"), { st with clock := now })
  | some tok =>
    let vc := verifyToken st.tokenCache tok now fetch
    let auth := vc.1
    let st1 := { st with tokenCache := vc.2, clock := now }
    if auth.valid = false then
      (.unauthorized auth.error, st1)
    else
      (.ok auth.agent_id auth.email auth.balance
        ((st.tunnels.map Prod.snd).filter (fun t => t.agent_id = auth.agent_id)), st1)

/-- Periodic delivery task `reportUsage` (30 s interval): on success the
drained batch is gone, on failure the same records are pushed back. -/
def reportUsage (delivered : Bool) (now : Int) (st : BrokerState) : BrokerState :=
  { st with pendingUsage := if delivered then [] else st.pendingUsage, clock := now }

end KeyRoute

namespace KeyRoute

/-- One observable operation of the broker: an HTTP handler invocation or one
tick of a periodic task.  `now` never precedes the time of the previous
operation.  A `create` uses a freshly generated tunnel id: the source draws
ids from a cryptographic RNG and both spec and source treat them as unique
for the process lifetime. -/
inductive Step : BrokerState → BrokerState → Prop where
  | create {s : BrokerState} (token : Option String) (body : Option JsDur)
      (fetch : FetchOutcome) (now : Int) (tid priv pub : String) (addOk : Bool)
      (hnow : s.clock ≤ now) (hfresh : lookupA s.tunnels tid = none) :
      Step s (createTunnel s token body fetch now tid priv pub addOk).2
  | get {s : BrokerState} (token : Option String) (fetch : FetchOutcome)
      (now : Int) (tid : String) (hnow : s.clock ≤ now) :
      Step s (getTunnel s token fetch now tid).2
  | del {s : BrokerState} (token : Option String) (fetch : FetchOutcome)
      (now : Int) (tid : String) (hnow : s.clock ≤ now) :
      Step s (deleteTunnel s token fetch now tid).2
  | listT {s : BrokerState} (token : Option String) (fetch : FetchOutcome)
      (now : Int) (hnow : s.clock ≤ now) :
      Step s (listTunnels s token fetch now).2
  | bill {s : BrokerState} (now : Int) (hnow : s.clock ≤ now) :
      Step s (billActiveTunnels now s)
  | cleanup {s : BrokerState} (now : Int) (hnow : s.clock ≤ now) :
      Step s (cleanupExpiredTunnels now s)
  | report {s : BrokerState} (delivered : Bool) (now : Int) (hnow : s.clock ≤ now) :
      Step s (reportUsage delivered now s)

/-- Zero or more broker operations. -/
def Steps : BrokerState → BrokerState → Prop := Relation.ReflTransGen Step

/-- States the broker can be in, starting from process start. -/
def Reachable (s : BrokerState) : Prop := Steps initState s

theorem lookupA_setA_self {α : Type} (l : List (String × α)) (k : String) (v : α) :
    lookupA (setA l k v) k = some v := by
  induction l with
  | nil => simp [setA, lookupA]
  | cons e t ih =>
    by_cases h : e.1 = k <;> simp [setA, lookupA, h, ih]

theorem lookupA_setA_ne {α : Type} (l : List (String × α)) (k k' : String) (v : α)
    (h : k ≠ k') : lookupA (setA l k v) k' = lookupA l k' := by
  induction l with
  | nil => simp [setA, lookupA, h]
  | cons e t ih =>
    by_cases he : e.1 = k
    · simp [setA, lookupA, he, h]
    · simp [setA, lookupA, he, ih]

theorem setA_fresh_append {α : Type} (l : List (String × α)) (k : String) (v : α)
    (h : lookupA l k = none) : setA l k v = l ++ [(k, v)] := by
  induction l with
  | nil => simp [setA]
  | cons e t ih =>
    by_cases he : e.1 = k
    · simp [lookupA, he] at h
    · simp [lookupA, he] at h
      simp [setA, he, ih h]

theorem lookupA_map {α β : Type} (l : List (String × α)) (f : α → β)
    (k : String) : lookupA (l.map (fun e => (e.1, f e.2))) k =
      (lookupA l k).map f := by
  induction l with
  | nil => simp [lookupA]
  | cons e t ih =>
    by_cases h : e.1 = k
    · subst h; simp [lookupA, ih]
    · simp [lookupA, h, ih]

theorem lookupA_append {α : Type} (l₁ l₂ : List (String × α)) (k : String) :
    lookupA (l₁ ++ l₂) k =
      match lookupA l₁ k with
      | some v => some v
      | none => lookupA l₂ k := by
  induction l₁ with
  | nil => simp [lookupA]
  | cons e t ih =>
    by_cases h : e.1 = k <;> simp [lookupA, h, ih]

theorem lookupA_mem {α : Type} {l : List (String × α)} {k : String} {v : α}
    (h : lookupA l k = some v) : (k, v) ∈ l := by
  induction l with
  | nil => simp [lookupA] at h
  | cons e t ih =>
    obtain ⟨k0, v0⟩ := e
    by_cases he : k0 = k
    · simp [lookupA, he] at h
      subst he
      rw [← h]
      exact List.mem_cons_self _ _
    · simp [lookupA, he] at h
      exact List.mem_cons_of_mem _ (ih h)

theorem length_setA_existing {α : Type} (l : List (String × α)) (k : String) (v v₀ : α)
    (h : lookupA l k = some v₀) : (setA l k v).length = l.length := by
  induction l with
  | nil => simp [lookupA] at h
  | cons e t ih =>
    by_cases he : e.1 = k
    · simp [setA, he]
    · simp [lookupA, he] at h
      simp [setA, he, ih h]

theorem map_snd_setA_existing {α β : Type} (l : List (String × α)) (k : String)
    (v v₀ : α) (f : α → β) (h : lookupA l k = some v₀) (hf : f v = f v₀) :
    (setA l k v).map (fun e => f e.2) = l.map (fun e => f e.2) := by
  induction l with
  | nil => simp [lookupA] at h
  | cons e t ih =>
    by_cases he : e.1 = k
    · simp [lookupA, he] at h
      simp [setA, he, hf, h]
    · simp [lookupA, he] at h
      simp [setA, he, ih h]

end KeyRoute

namespace KeyRoute

theorem mem_setA {α : Type} {l : List (String × α)} {k : String} {v : α} {e : String × α}
    (h : e ∈ setA l k v) : e ∈ l ∨ e = (k, v) := by
  induction l with
  | nil => simpa [setA] using h
  | cons e0 t ih =>
    by_cases he : e0.1 = k
    · simp [setA, he] at h
      rcases h with h | h
      · right; exact h
      · left; exact List.mem_cons_of_mem _ h
    · simp [setA, he] at h
      rcases h with h | h
      · left; simp [h]
      · rcases ih h with h' | h'
        · left; exact List.mem_cons_of_mem _ h'
        · right; exact h'

/-- A verification response with `valid` set, used by the concrete traces. -/
def vrA : VerifyResponse := { valid := true, agent_id := some "a" }

/-- Total seconds billed for a tunnel: the sum of `quantity × 3600` over the
usage records carrying its id. -/
def billedSeconds (l : List UsageRecord) (tid : String) : ℚ :=
  (l.filter (fun r => r.metadata.tunnel_id == tid)).foldl
    (fun acc r => acc + r.quantity * 3600) 0

/-- State after creating a 45-second tunnel `"t"` at time 0. -/
def c1s1 : BrokerState :=
  (createTunnel initState (some "tk") (some (.num 45)) (.ok vrA) 0 "t" "priv" "pub" true).2

/-- `GET /v1/tunnel/t` at t = 50 s, after expiry but before any cleanup scan. -/
def c1get : GetResult × BrokerState := getTunnel c1s1 (some "tk") (.ok vrA) 50000 "t"

/-- C1: a tunnel whose expiry transition is performed by the GET handler never
receives its final accrual: the 45-second tunnel `"t"` expires via GET at
t = 50 s with zero seconds billed (and stays at zero after the next cleanup
scan, which skips non-`active` records), while its final `duration_seconds`
is 45 — far outside the claimed ±1 s tolerance. -/
theorem c1_get_expiry_skips_final_accrual :
    Reachable c1get.2 ∧
    (∃ cost : ℚ, c1get.1 = GetResult.ok "t" REGION Status.expired 0 45000 45 cost) ∧
    billedSeconds c1get.2.pendingUsage "t" = 0 ∧
    billedSeconds (cleanupExpiredTunnels 55000 c1get.2).pendingUsage "t" = 0 ∧
    ¬ |billedSeconds c1get.2.pendingUsage "t" - 45| ≤ 1 := by
  have h0 : billedSeconds c1get.2.pendingUsage "t" = 0 := by decide
  refine ⟨?_, ⟨_, rfl⟩, h0, by decide, by rw [h0]; norm_num⟩
  have h1 : Step initState c1s1 :=
    Step.create (some "tk") (some (.num 45)) (.ok vrA) 0 "t" "priv" "pub" true
      (by decide) (by decide)
  have h2 : Step c1s1 c1get.2 :=
    Step.get (some "tk") (.ok vrA) 50000 "t" (by decide)
  exact Relation.ReflTransGen.tail (Relation.ReflTransGen.single h1) h2

/-- C3 counterexample: a request with `duration: 0` is neither missing nor
unparseable, yet the effective duration is the 300-second default, not the
clamp of the requested value to `[30, 3600]` (which would be 30). -/
theorem c3_counterexample :
    effectiveDuration (JsDur.num 0) = 300 ∧
    effectiveDuration (JsDur.num 0) ≠ max 30 (min 0 3600) := by decide

/-- C3 (amended): the effective duration is the requested value clamped to
`[30, 3600]` for every nonzero numeric duration (29 ↦ 30, 3601 ↦ 3600);
a missing, non-numeric, or zero duration yields 300; and a successful create
stores `expires_at = created_at + effective duration`. -/
theorem c3_duration_clamp (n : Int) (hn : n ≠ 0) (st : BrokerState) (tok : String)
    (d : JsDur) (vr : VerifyResponse) (now : Int) (tid priv pub : String) (addOk : Bool)
    (htok : tok ≠ "") (hmiss : lookupCache st.tokenCache tok now = none)
    (hv : vr.valid = true) (hca : vr.can_afford ≠ some false) :
    effectiveDuration (JsDur.num n) = max 30 (min n 3600) ∧
    effectiveDuration JsDur.undef = 300 ∧
    effectiveDuration JsDur.nan = 300 ∧
    effectiveDuration (JsDur.num 0) = 300 ∧
    effectiveDuration (JsDur.num 29) = 30 ∧
    effectiveDuration (JsDur.num 3601) = 3600 ∧
    (createTunnel st (some tok) (some d) (.ok vr) now tid priv pub addOk).1 =
      CreateResult.created tid REGION (now + effectiveDuration d * 1000) st.nextClientIP ∧
    lookupA (createTunnel st (some tok) (some d) (.ok vr) now tid priv pub addOk).2.tunnels
        tid = some
      { id := tid, agent_id := vr.agent_id, region := REGION, created_at := now,
        expires_at := now + effectiveDuration d * 1000, client_private_key := priv,
        client_public_key := pub, client_ip := st.nextClientIP, status := .active,
        last_billed_at := now } := by
  refine ⟨by simp [effectiveDuration, hn], by decide, by decide, by decide, by decide,
    by decide, ?_, ?_⟩
  · simp [createTunnel, verifyToken, htok, hmiss, hv, hca]
  · simp [createTunnel, verifyToken, htok, hmiss, hv, hca, lookupA_setA_self]

/-- C3 witness: the amended statement applied at concrete inputs. -/
theorem c3_duration_clamp_witness :
    effectiveDuration (JsDur.num 29) = max 30 (min 29 3600) ∧
    (createTunnel initState (some "tk") (some (JsDur.num 29)) (.ok vrA) 0 "t" "p" "P"
        true).1 = CreateResult.created "t" REGION (0 + effectiveDuration (JsDur.num 29)
        * 1000) initState.nextClientIP := by
  have h := c3_duration_clamp 29 (by decide) initState "tk" (JsDur.num 29) vrA 0 "t" "p"
    "P" true (by decide) (by decide) (by decide) (by decide)
  exact ⟨h.1, h.2.2.2.2.2.2.1⟩

/-- The `VerifyResponse` produced by the transport-failure catch branch. -/
def authUnavailable : VerifyResponse :=
  { valid := false, error := some "Authentication service unavailable" }

/-- C9: a transport-level keeper failure yields
`valid = false, error = "Authentication service unavailable"` without touching
the cache, the create handler then answers 401 with that error, and every
cache entry ever written is keyed by the raw token, holds a response with
`valid` set, and expires after the 60-second TTL. -/
theorem c9_verify_unavailable (cache : TokenCache) (tok : String) (now : Int)
    (htok : tok ≠ "") (hmiss : lookupCache cache tok now = none) :
    verifyToken cache tok now .transportError = (authUnavailable, cache) ∧
    (∀ st : BrokerState, ∀ d : JsDur, ∀ tid priv pub : String, ∀ addOk : Bool,
      st.tokenCache = cache →
      (createTunnel st (some tok) (some d) .transportError now tid priv pub addOk).1 =
        CreateResult.unauthorized (some "Authentication service unavailable")) ∧
    (∀ fetch : FetchOutcome, ∀ e,
      e ∈ (verifyToken cache tok now fetch).2 →
      e ∈ cache ∨ (e.1 = tok ∧ e.2.1.valid = true ∧ e.2.2 = now + TOKEN_CACHE_TTL)) := by
  refine ⟨by simp [verifyToken, htok, hmiss, authUnavailable], ?_, ?_⟩
  · intro st d tid priv pub addOk hc
    simp [createTunnel, verifyToken, htok, hc, hmiss]
  · intro fetch e he
    cases fetch with
    | transportError =>
      simp [verifyToken, htok, hmiss] at he
      exact Or.inl he
    | ok data =>
      by_cases hval : data.valid
      · simp [verifyToken, htok, hmiss, hval] at he
        rcases mem_setA he with h | h
        · exact Or.inl h
        · subst h
          exact Or.inr ⟨rfl, hval, rfl⟩
      · simp [verifyToken, htok, hmiss, hval] at he
        exact Or.inl he

/-- C9 witness: concrete instance of the transport-failure behavior. -/
theorem c9_verify_unavailable_witness :
    verifyToken [] "tk" 0 .transportError = (authUnavailable, []) ∧
    (createTunnel initState (some "tk") (some JsDur.undef) .transportError 0 "t" "p" "P"
        true).1 = CreateResult.unauthorized (some "Authentication service unavailable") := by
  have h := c9_verify_unavailable [] "tk" 0 (by decide) (by decide)
  exact ⟨h.1, h.2.1 initState JsDur.undef "t" "p" "P" true rfl⟩

/-- C10: the 402 insufficient-credits response occurs only when the verify
response carries `can_afford` strictly equal to `false`; with `valid` set and
`can_afford` absent, creation proceeds. -/
theorem c10_can_afford (st : BrokerState) (tok : String) (d : JsDur)
    (vr : VerifyResponse) (now : Int) (tid priv pub : String) (addOk : Bool)
    (htok : tok ≠ "") (hmiss : lookupCache st.tokenCache tok now = none)
    (hv : vr.valid = true) :
    (∀ b e c, (createTunnel st (some tok) (some d) (.ok vr) now tid priv pub addOk).1 =
      CreateResult.insufficientCredits b e c → vr.can_afford = some false) ∧
    (vr.can_afford = none →
      (createTunnel st (some tok) (some d) (.ok vr) now tid priv pub addOk).1 =
        CreateResult.created tid REGION (now + effectiveDuration d * 1000)
          st.nextClientIP) := by
  constructor
  · intro b e c h
    by_cases hca : vr.can_afford = some false
    · exact hca
    · simp [createTunnel, verifyToken, htok, hmiss, hv, hca] at h
  · intro hca
    have hca' : vr.can_afford ≠ some false := by simp [hca]
    simp [createTunnel, verifyToken, htok, hmiss, hv, hca']

/-- C10 witness: with `can_afford` absent the create succeeds. -/
theorem c10_can_afford_witness :
    (createTunnel initState (some "tk") (some (JsDur.num 60)) (.ok vrA) 0 "t" "p" "P"
        true).1 = CreateResult.created "t" REGION (0 + effectiveDuration (JsDur.num 60)
        * 1000) initState.nextClientIP :=
  (c10_can_afford initState "tk" (JsDur.num 60) vrA 0 "t" "p" "P" true (by decide)
    (by decide) (by decide)).2 rfl

end KeyRoute

namespace KeyRoute

/-- C7: a GET of an owned `active` tunnel past its `expires_at` transitions
the record to `expired` and removes the kernel peer, and the response reports
status `expired` with `duration_seconds` measured from `created_at` to
`expires_at` (not to now). -/
theorem c7_get_expires (st : BrokerState) (tok : String) (vr : VerifyResponse)
    (now : Int) (tid : String) (t : Tunnel)
    (htok : tok ≠ "") (hmiss : lookupCache st.tokenCache tok now = none)
    (hv : vr.valid = true) (hl : lookupA st.tunnels tid = some t)
    (hown : t.agent_id = vr.agent_id) (hact : t.status = .active)
    (hexp : t.expires_at < now) :
    (getTunnel st (some tok) (.ok vr) now tid).1 =
      GetResult.ok t.id t.region Status.expired t.created_at t.expires_at
        ((t.expires_at - t.created_at) / 1000)
        ((((t.expires_at - t.created_at) / 1000 : Int) : ℚ) / 3600 * costPerHour) ∧
    lookupA (getTunnel st (some tok) (.ok vr) now tid).2.tunnels tid =
      some { t with status := Status.expired } ∧
    t.client_public_key ∉ (getTunnel st (some tok) (.ok vr) now tid).2.peers := by
  have hauth : verifyToken st.tokenCache tok now (.ok vr) =
      (vr, setA st.tokenCache tok (vr, now + TOKEN_CACHE_TTL)) := by
    simp [verifyToken, htok, hmiss, hv]
  refine ⟨?_, ?_, ?_⟩
  · simp [getTunnel, hauth, hv, hl, hown, hact, hexp]
  · simp [getTunnel, hauth, hv, hl, hown, hact, hexp, lookupA_setA_self]
  · simp [getTunnel, hauth, hv, hl, hown, hact, hexp, removePeerFrom]

/-- An active tunnel record used by concrete instances. -/
def c7t : Tunnel :=
  { id := "x", agent_id := some "a", region := REGION, created_at := 0,
    expires_at := 30000, client_private_key := "p", client_public_key := "P",
    client_ip := 2, status := .active, last_billed_at := 0 }

/-- A broker state holding the single active tunnel `c7t` with its peer. -/
def c7st : BrokerState :=
  { tunnels := [("x", c7t)], nextClientIP := 3, pendingUsage := [],
    tokenCache := [], peers := ["P"], clock := 0 }

/-- C7 witness: GET at t = 40 s of the 30-second tunnel `c7t`. -/
theorem c7_get_expires_witness :
    (getTunnel c7st (some "tk") (.ok vrA) 40000 "x").1 =
      GetResult.ok c7t.id c7t.region Status.expired c7t.created_at c7t.expires_at
        ((c7t.expires_at - c7t.created_at) / 1000)
        ((((c7t.expires_at - c7t.created_at) / 1000 : Int) : ℚ) / 3600 * costPerHour) ∧
    lookupA (getTunnel c7st (some "tk") (.ok vrA) 40000 "x").2.tunnels "x" =
      some { c7t with status := Status.expired } ∧
    c7t.client_public_key ∉ (getTunnel c7st (some "tk") (.ok vrA) 40000 "x").2.peers :=
  c7_get_expires c7st "tk" vrA 40000 "x" c7t (by decide) (by decide) (by decide)
    (by decide) (by decide) (by decide) (by decide)

end KeyRoute

namespace KeyRoute

theorem setA_lookup_self {α : Type} {l : List (String × α)} {k : String} {v : α}
    (h : lookupA l k = some v) : setA l k v = l := by
  induction l with
  | nil => simp [lookupA] at h
  | cons e t ih =>
    obtain ⟨k0, v0⟩ := e
    by_cases he : k0 = k
    · simp [lookupA, he] at h
      simp [setA, he, h]
    · simp [lookupA, he] at h
      simp [setA, he, ih h]

/-- Case analysis of the create handler's state effect: either an early
return leaves the registry untouched, or a fresh active record with
`created_at = last_billed_at = now` and the allocator's current octet is
stored under `tid` and the allocator advances (with wraparound). -/
theorem createTunnel_cases (s : BrokerState) (token : Option String)
    (body : Option JsDur) (fetch : FetchOutcome) (now : Int) (tid priv pub : String)
    (addOk : Bool) :
    ((createTunnel s token body fetch now tid priv pub addOk).2.tunnels = s.tunnels ∧
     (createTunnel s token body fetch now tid priv pub addOk).2.nextClientIP =
       s.nextClientIP ∧
     (createTunnel s token body fetch now tid priv pub addOk).2.clock = now) ∨
    (∃ tun : Tunnel,
      (createTunnel s token body fetch now tid priv pub addOk).2.tunnels =
        setA s.tunnels tid tun ∧
      tun.created_at = now ∧ tun.last_billed_at = now ∧ tun.status = .active ∧
      tun.client_ip = s.nextClientIP ∧
      (createTunnel s token body fetch now tid priv pub addOk).2.nextClientIP =
        (if s.nextClientIP + 1 > 254 then 2 else s.nextClientIP + 1) ∧
      (createTunnel s token body fetch now tid priv pub addOk).2.clock = now) := by
  rcases token with _ | tok
  · exact Or.inl ⟨rfl, rfl, rfl⟩
  rcases body with _ | d
  · exact Or.inl ⟨rfl, rfl, rfl⟩
  unfold createTunnel
  dsimp only
  split
  · exact Or.inl ⟨rfl, rfl, rfl⟩
  split
  · exact Or.inl ⟨rfl, rfl, rfl⟩
  · exact Or.inr ⟨_, rfl, rfl, rfl, rfl, rfl, rfl, rfl⟩

/-- Case analysis of the GET handler's state effect: either the registry is
unchanged, or an owned active record past expiry is overwritten with status
`expired`. -/
theorem getTunnel_cases (s : BrokerState) (token : Option String)
    (fetch : FetchOutcome) (now : Int) (tid : String) :
    ((getTunnel s token fetch now tid).2.tunnels = s.tunnels ∧
     (getTunnel s token fetch now tid).2.nextClientIP = s.nextClientIP ∧
     (getTunnel s token fetch now tid).2.clock = now) ∨
    (∃ t0 : Tunnel, lookupA s.tunnels tid = some t0 ∧ t0.status = .active ∧
      t0.expires_at < now ∧
      (getTunnel s token fetch now tid).2.tunnels =
        setA s.tunnels tid { t0 with status := Status.expired } ∧
      (getTunnel s token fetch now tid).2.nextClientIP = s.nextClientIP ∧
      (getTunnel s token fetch now tid).2.clock = now) := by
  rcases token with _ | tok
  · exact Or.inl ⟨rfl, rfl, rfl⟩
  unfold getTunnel
  dsimp only
  split
  · exact Or.inl ⟨rfl, rfl, rfl⟩
  split
  · exact Or.inl ⟨rfl, rfl, rfl⟩
  next t0 hl0 =>
    split
    · exact Or.inl ⟨rfl, rfl, rfl⟩
    · by_cases hex : t0.status = .active ∧ t0.expires_at < now
      · exact Or.inr ⟨t0, hl0, hex.1, hex.2, by simp [hex], rfl, rfl⟩
      · refine Or.inl ⟨?_, rfl, rfl⟩
        simp only [hex, if_false]
        exact setA_lookup_self hl0

/-- Case analysis of the DELETE handler's state effect: either the registry is
unchanged, or an owned active record is overwritten with status `closed` and
`expires_at = now`. -/
theorem deleteTunnel_cases (s : BrokerState) (token : Option String)
    (fetch : FetchOutcome) (now : Int) (tid : String) :
    ((deleteTunnel s token fetch now tid).2.tunnels = s.tunnels ∧
     (deleteTunnel s token fetch now tid).2.nextClientIP = s.nextClientIP ∧
     (deleteTunnel s token fetch now tid).2.clock = now) ∨
    (∃ t0 : Tunnel, lookupA s.tunnels tid = some t0 ∧ t0.status = .active ∧
      (deleteTunnel s token fetch now tid).2.tunnels =
        setA s.tunnels tid { t0 with status := Status.closed, expires_at := now } ∧
      (deleteTunnel s token fetch now tid).2.nextClientIP = s.nextClientIP ∧
      (deleteTunnel s token fetch now tid).2.clock = now) := by
  rcases token with _ | tok
  · exact Or.inl ⟨rfl, rfl, rfl⟩
  unfold deleteTunnel
  dsimp only
  split
  · exact Or.inl ⟨rfl, rfl, rfl⟩
  split
  · exact Or.inl ⟨rfl, rfl, rfl⟩
  next t0 hl0 =>
    split
    · exact Or.inl ⟨rfl, rfl, rfl⟩
    split
    · exact Or.inl ⟨rfl, rfl, rfl⟩
    next hact =>
      refine Or.inr ⟨t0, hl0, ?_, rfl, rfl, rfl⟩
      by_contra hne
      exact hact hne

/-- The list handler leaves registry, allocator and pending usage untouched. -/
theorem listTunnels_cases (s : BrokerState) (token : Option String)
    (fetch : FetchOutcome) (now : Int) :
    (listTunnels s token fetch now).2.tunnels = s.tunnels ∧
    (listTunnels s token fetch now).2.nextClientIP = s.nextClientIP ∧
    (listTunnels s token fetch now).2.clock = now := by
  rcases token with _ | tok
  · exact ⟨rfl, rfl, rfl⟩
  unfold listTunnels
  dsimp only
  split
  · exact ⟨rfl, rfl, rfl⟩
  · exact ⟨rfl, rfl, rfl⟩

end KeyRoute

namespace KeyRoute

theorem billOne_created (now : Int) (t : Tunnel) : (billOne now t).created_at = t.created_at := by
  unfold billOne
  split <;> rfl

theorem billOne_status (now : Int) (t : Tunnel) : (billOne now t).status = t.status := by
  unfold billOne
  split <;> rfl

theorem billOne_client_ip (now : Int) (t : Tunnel) : (billOne now t).client_ip = t.client_ip := by
  unfold billOne
  split <;> rfl

theorem billOne_terminal (now : Int) (t : Tunnel) (h : t.status ≠ .active) :
    billOne now t = t := by
  unfold billOne
  rw [if_neg]
  intro hc
  exact h hc.1

theorem billOne_advance (now : Int) (t : Tunnel) (h : t.last_billed_at ≤ now) :
    t.last_billed_at ≤ (billOne now t).last_billed_at ∧
    (billOne now t).last_billed_at ≤ now := by
  unfold billOne
  split
  · dsimp only
    omega
  · exact ⟨le_refl _, h⟩

theorem expireOne_created (now : Int) (t : Tunnel) :
    (expireOne now t).created_at = t.created_at := by
  unfold expireOne
  split <;> rfl

theorem expireOne_lba (now : Int) (t : Tunnel) :
    (expireOne now t).last_billed_at = t.last_billed_at := by
  unfold expireOne
  split <;> rfl

theorem expireOne_client_ip (now : Int) (t : Tunnel) :
    (expireOne now t).client_ip = t.client_ip := by
  unfold expireOne
  split <;> rfl

theorem expireOne_terminal (now : Int) (t : Tunnel) (h : t.status ≠ .active) :
    expireOne now t = t := by
  unfold expireOne
  rw [if_neg]
  intro hc
  exact h hc.1

/-- Single broker operations never remove a record from the registry. -/
theorem step_lookup_isSome {s s' : BrokerState} (h : Step s s') (id : String)
    (hl : (lookupA s.tunnels id).isSome) : (lookupA s'.tunnels id).isSome := by
  cases h with
  | create token body fetch now tid priv pub addOk hnow hfresh =>
    rcases createTunnel_cases s token body fetch now tid priv pub addOk with
      ⟨ht, _, _⟩ | ⟨tun, ht, _, _, _, _, _, _⟩
    · rw [ht]; exact hl
    · rw [ht]
      by_cases hid : tid = id
      · subst hid; rw [lookupA_setA_self]; rfl
      · rw [lookupA_setA_ne _ _ _ _ hid]; exact hl
  | get token fetch now tid hnow =>
    rcases getTunnel_cases s token fetch now tid with
      ⟨ht, _, _⟩ | ⟨t0, hl0, _, _, ht, _, _⟩
    · rw [ht]; exact hl
    · rw [ht]
      by_cases hid : tid = id
      · subst hid; rw [lookupA_setA_self]; rfl
      · rw [lookupA_setA_ne _ _ _ _ hid]; exact hl
  | del token fetch now tid hnow =>
    rcases deleteTunnel_cases s token fetch now tid with
      ⟨ht, _, _⟩ | ⟨t0, hl0, _, ht, _, _⟩
    · rw [ht]; exact hl
    · rw [ht]
      by_cases hid : tid = id
      · subst hid; rw [lookupA_setA_self]; rfl
      · rw [lookupA_setA_ne _ _ _ _ hid]; exact hl
  | listT token fetch now hnow =>
    rw [(listTunnels_cases s token fetch now).1]; exact hl
  | bill now hnow =>
    show (lookupA (s.tunnels.map (fun e => (e.1, billOne now e.2))) id).isSome
    rw [lookupA_map]
    simpa using hl
  | cleanup now hnow =>
    show (lookupA (s.tunnels.map (fun e => (e.1, expireOne now e.2))) id).isSome
    rw [lookupA_map]
    simpa using hl
  | report delivered now hnow =>
    exact hl

/-- A record that is already terminal is bitwise untouched by any single
broker operation. -/
theorem step_frame_terminal {s s' : BrokerState} (h : Step s s') (id : String)
    (t : Tunnel) (hl : lookupA s.tunnels id = some t) (hterm : t.status ≠ .active) :
    lookupA s'.tunnels id = some t := by
  cases h with
  | create token body fetch now tid priv pub addOk hnow hfresh =>
    rcases createTunnel_cases s token body fetch now tid priv pub addOk with
      ⟨ht, _, _⟩ | ⟨tun, ht, _, _, _, _, _, _⟩
    · rw [ht]; exact hl
    · rw [ht]
      have hid : tid ≠ id := by
        intro hc
        rw [hc, hl] at hfresh
        exact Option.noConfusion hfresh
      rw [lookupA_setA_ne _ _ _ _ hid]; exact hl
  | get token fetch now tid hnow =>
    rcases getTunnel_cases s token fetch now tid with
      ⟨ht, _, _⟩ | ⟨t0, hl0, hact, _, ht, _, _⟩
    · rw [ht]; exact hl
    · rw [ht]
      have hid : tid ≠ id := by
        intro hc
        subst hc
        rw [hl0] at hl
        injection hl with hl
        subst hl
        exact hterm hact
      rw [lookupA_setA_ne _ _ _ _ hid]; exact hl
  | del token fetch now tid hnow =>
    rcases deleteTunnel_cases s token fetch now tid with
      ⟨ht, _, _⟩ | ⟨t0, hl0, hact, ht, _, _⟩
    · rw [ht]; exact hl
    · rw [ht]
      have hid : tid ≠ id := by
        intro hc
        subst hc
        rw [hl0] at hl
        injection hl with hl
        subst hl
        exact hterm hact
      rw [lookupA_setA_ne _ _ _ _ hid]; exact hl
  | listT token fetch now hnow =>
    rw [(listTunnels_cases s token fetch now).1]; exact hl
  | bill now hnow =>
    show lookupA (s.tunnels.map (fun e => (e.1, billOne now e.2))) id = some t
    rw [lookupA_map, hl]
    simp [billOne_terminal now t hterm]
  | cleanup now hnow =>
    show lookupA (s.tunnels.map (fun e => (e.1, expireOne now e.2))) id = some t
    rw [lookupA_map, hl]
    simp [expireOne_terminal now t hterm]
  | report delivered now hnow =>
    exact hl

end KeyRoute

namespace KeyRoute

/-- The cursor bound that actually holds: every stored record satisfies
`created_at ≤ last_billed_at ≤` current time. -/
def cursorInv (s : BrokerState) : Prop :=
  ∀ id t, lookupA s.tunnels id = some t →
    t.created_at ≤ t.last_billed_at ∧ t.last_billed_at ≤ s.clock

theorem cursorInv_init : cursorInv initState := by
  intro id t hl
  simp [initState, lookupA] at hl

theorem cursorInv_step {s s' : BrokerState} (h : Step s s') (hinv : cursorInv s) :
    cursorInv s' := by
  cases h with
  | create token body fetch now tid priv pub addOk hnow hfresh =>
    rcases createTunnel_cases s token body fetch now tid priv pub addOk with
      ⟨ht, _, hc⟩ | ⟨tun, ht, hcr, hlb, _, _, _, hc⟩
    · intro id t hl
      rw [ht] at hl
      rw [hc]
      obtain ⟨h1, h2⟩ := hinv id t hl
      exact ⟨h1, h2.trans hnow⟩
    · intro id t hl
      rw [ht] at hl
      rw [hc]
      by_cases hid : tid = id
      · subst hid
        rw [lookupA_setA_self] at hl
        injection hl with hl
        subst hl
        rw [hcr, hlb]
        exact ⟨le_refl _, le_refl _⟩
      · rw [lookupA_setA_ne _ _ _ _ hid] at hl
        obtain ⟨h1, h2⟩ := hinv id t hl
        exact ⟨h1, h2.trans hnow⟩
  | get token fetch now tid hnow =>
    rcases getTunnel_cases s token fetch now tid with
      ⟨ht, _, hc⟩ | ⟨t0, hl0, _, _, ht, _, hc⟩
    · intro id t hl
      rw [ht] at hl
      rw [hc]
      obtain ⟨h1, h2⟩ := hinv id t hl
      exact ⟨h1, h2.trans hnow⟩
    · intro id t hl
      rw [ht] at hl
      rw [hc]
      by_cases hid : tid = id
      · subst hid
        rw [lookupA_setA_self] at hl
        injection hl with hl
        subst hl
        obtain ⟨h1, h2⟩ := hinv tid t0 hl0
        exact ⟨h1, h2.trans hnow⟩
      · rw [lookupA_setA_ne _ _ _ _ hid] at hl
        obtain ⟨h1, h2⟩ := hinv id t hl
        exact ⟨h1, h2.trans hnow⟩
  | del token fetch now tid hnow =>
    rcases deleteTunnel_cases s token fetch now tid with
      ⟨ht, _, hc⟩ | ⟨t0, hl0, _, ht, _, hc⟩
    · intro id t hl
      rw [ht] at hl
      rw [hc]
      obtain ⟨h1, h2⟩ := hinv id t hl
      exact ⟨h1, h2.trans hnow⟩
    · intro id t hl
      rw [ht] at hl
      rw [hc]
      by_cases hid : tid = id
      · subst hid
        rw [lookupA_setA_self] at hl
        injection hl with hl
        subst hl
        obtain ⟨h1, h2⟩ := hinv tid t0 hl0
        exact ⟨h1, h2.trans hnow⟩
      · rw [lookupA_setA_ne _ _ _ _ hid] at hl
        obtain ⟨h1, h2⟩ := hinv id t hl
        exact ⟨h1, h2.trans hnow⟩
  | listT token fetch now hnow =>
    obtain ⟨ht, _, hc⟩ := listTunnels_cases s token fetch now
    intro id t hl
    rw [ht] at hl
    rw [hc]
    obtain ⟨h1, h2⟩ := hinv id t hl
    exact ⟨h1, h2.trans hnow⟩
  | bill now hnow =>
    intro id t hl
    have hl' : lookupA (s.tunnels.map (fun e => (e.1, billOne now e.2))) id = some t := hl
    rw [lookupA_map] at hl'
    rcases hopt : lookupA s.tunnels id with _ | t0
    · rw [hopt] at hl'
      exact Option.noConfusion hl'
    · rw [hopt] at hl'
      injection hl' with hl'
      subst hl'
      obtain ⟨h1, h2⟩ := hinv id t0 hopt
      have hadv := billOne_advance now t0 (h2.trans hnow)
      show (billOne now t0).created_at ≤ _ ∧ _ ≤ (billActiveTunnels now s).clock
      rw [billOne_created]
      exact ⟨h1.trans hadv.1, hadv.2⟩
  | cleanup now hnow =>
    intro id t hl
    have hl' : lookupA (s.tunnels.map (fun e => (e.1, expireOne now e.2))) id = some t := hl
    rw [lookupA_map] at hl'
    rcases hopt : lookupA s.tunnels id with _ | t0
    · rw [hopt] at hl'
      exact Option.noConfusion hl'
    · rw [hopt] at hl'
      injection hl' with hl'
      subst hl'
      obtain ⟨h1, h2⟩ := hinv id t0 hopt
      show (expireOne now t0).created_at ≤ _ ∧ _ ≤ (cleanupExpiredTunnels now s).clock
      rw [expireOne_created, expireOne_lba]
      exact ⟨h1, h2.trans hnow⟩
  | report delivered now hnow =>
    intro id t hl
    obtain ⟨h1, h2⟩ := hinv id t hl
    exact ⟨h1, h2.trans hnow⟩

/-- C2 (amended): in every reachable state, every record satisfies
`created_at ≤ last_billed_at ≤ now` (the current time); the upper bound by
`expires_at` does not hold (see the counterexample). -/
theorem cursorInv_reachable (s : BrokerState) (h : Reachable s) : cursorInv s := by
  induction h with
  | refl => exact cursorInv_init
  | tail hs hstep ih => exact cursorInv_step hstep ih

theorem c2_cursor_bounds (s : BrokerState) (h : Reachable s) (id : String)
    (t : Tunnel) (hl : lookupA s.tunnels id = some t) :
    t.created_at ≤ t.last_billed_at ∧ t.last_billed_at ≤ s.clock :=
  cursorInv_reachable s h id t hl

/-- State after creating a 115-second tunnel `"t"` at time 0. -/
def c2s1 : BrokerState :=
  (createTunnel initState (some "tk") (some (.num 115)) (.ok vrA) 0 "t" "priv" "pub"
    true).2

/-- Billing ticks at t = 61 s and t = 121 s: the second tick advances
`last_billed_at` to 120 s, beyond `expires_at` = 115 s. -/
def c2s3 : BrokerState := billActiveTunnels 121000 (billActiveTunnels 61000 c2s1)

/-- The record of `"t"` in `c2s3`. -/
def c2tun : Tunnel :=
  { id := "t", agent_id := some "a", region := REGION, created_at := 0,
    expires_at := 115000, client_private_key := "priv", client_public_key := "pub",
    client_ip := 2, status := .active, last_billed_at := 120000 }

/-- C2 counterexample: a reachable interleaving in which a billing tick
processes a wall-expired but not yet transitioned tunnel and pushes
`last_billed_at` past `expires_at`, violating
`last_billed_at ≤ min now expires_at`. -/
theorem c2_counterexample :
    Reachable c2s3 ∧ lookupA c2s3.tunnels "t" = some c2tun ∧
    ¬ c2tun.last_billed_at ≤ min c2s3.clock c2tun.expires_at := by
  refine ⟨?_, by decide, by decide⟩
  have h1 : Step initState c2s1 :=
    Step.create (some "tk") (some (.num 115)) (.ok vrA) 0 "t" "priv" "pub" true
      (by decide) (by decide)
  have h2 : Step c2s1 (billActiveTunnels 61000 c2s1) :=
    Step.bill 61000 (by decide)
  have h3 : Step (billActiveTunnels 61000 c2s1) c2s3 :=
    Step.bill 121000 (by decide)
  exact Relation.ReflTransGen.tail
    (Relation.ReflTransGen.tail (Relation.ReflTransGen.single h1) h2) h3

/-- The record of `"t"` in `c1s1`. -/
def c1s1t : Tunnel :=
  { id := "t", agent_id := some "a", region := REGION, created_at := 0,
    expires_at := 45000, client_private_key := "priv", client_public_key := "pub",
    client_ip := 2, status := .active, last_billed_at := 0 }

/-- C2 witness: the amended bound applied to the reachable state holding one
freshly created tunnel. -/
theorem c2_cursor_bounds_witness :
    c1s1t.created_at ≤ c1s1t.last_billed_at ∧ c1s1t.last_billed_at ≤ c1s1.clock := by
  have hr : Reachable c1s1 :=
    Relation.ReflTransGen.single
      (Step.create (some "tk") (some (.num 45)) (.ok vrA) 0 "t" "priv" "pub" true
        (by decide) (by decide))
  exact c2_cursor_bounds c1s1 hr "t" c1s1t (by decide)

end KeyRoute

namespace KeyRoute

/-- Records never disappear across any number of operations. -/
theorem steps_lookup_isSome {s s' : BrokerState} (h : Steps s s') (id : String) :
    (lookupA s.tunnels id).isSome → (lookupA s'.tunnels id).isSome := by
  induction h with
  | refl => exact fun h => h
  | tail hs hstep ih => exact fun h0 => step_lookup_isSome hstep id (ih h0)

/-- One operation either preserves a record's status or moves it away from
`active`; a terminal status is preserved bitwise. -/
theorem step_status {s s' : BrokerState} (h : Step s s') (id : String)
    (t t' : Tunnel) (hl : lookupA s.tunnels id = some t)
    (hl' : lookupA s'.tunnels id = some t') :
    t'.status = t.status ∨ t.status = .active := by
  by_cases hact : t.status = .active
  · exact Or.inr hact
  · have := step_frame_terminal h id t hl hact
    rw [this] at hl'
    injection hl' with hl'
    rw [hl']
    exact Or.inl rfl

theorem steps_status_aux {s s' : BrokerState} (h : Steps s s') (id : String)
    (t : Tunnel) (hl : lookupA s.tunnels id = some t) :
    ∀ t' : Tunnel, lookupA s'.tunnels id = some t' →
      t'.status = t.status ∨ t.status = .active := by
  induction h with
  | refl =>
    intro t' hl'
    rw [hl] at hl'
    injection hl' with hl'
    rw [hl']
    exact Or.inl rfl
  | tail hs hstep ih =>
    intro t' hl'
    have hm := steps_lookup_isSome hs id (by rw [hl]; rfl)
    obtain ⟨tm, htm⟩ := Option.isSome_iff_exists.mp hm
    rcases ih tm htm with h1 | h1
    · rcases step_status hstep id tm t' htm hl' with h2 | h2
      · exact Or.inl (h2.trans h1)
      · exact Or.inr (h1.symm.trans h2)
    · exact Or.inr h1

/-- C6: status is monotone along every sequence of operations: a record keeps
its status unless that status was `active`; in particular a terminal
(`expired` or `closed`) record never returns to `active` or any other
status. -/
theorem c6_status_monotone (s s' : BrokerState) (h : Steps s s') (id : String)
    (t t' : Tunnel) (hl : lookupA s.tunnels id = some t)
    (hl' : lookupA s'.tunnels id = some t') :
    t'.status = t.status ∨ t.status = .active :=
  steps_status_aux h id t hl t' hl'

/-- State after deleting (closing) the tunnel of `c7st` at t = 10 s. -/
def c6del : BrokerState := (deleteTunnel c7st (some "u") (.ok vrA) 10000 "x").2

/-- The record of `"x"` after the close in `c6del`. -/
def c6tClosed : Tunnel :=
  { id := "x", agent_id := some "a", region := REGION, created_at := 0,
    expires_at := 10000, client_private_key := "p", client_public_key := "P",
    client_ip := 2, status := .closed, last_billed_at := 0 }

/-- C6 witness: a concrete close followed by a billing tick; the status
evolution from `c7t` to the final record satisfies the monotonicity
disjunction. -/
theorem c6_status_monotone_witness :
    c6tClosed.status = c7t.status ∨ c7t.status = Status.active := by
  have h1 : Step c7st c6del := Step.del (some "u") (.ok vrA) 10000 "x" (by decide)
  have h2 : Step c6del (billActiveTunnels 200000 c6del) :=
    Step.bill 200000 (by decide)
  have hsteps : Steps c7st (billActiveTunnels 200000 c6del) :=
    Relation.ReflTransGen.tail (Relation.ReflTransGen.single h1) h2
  exact c6_status_monotone c7st (billActiveTunnels 200000 c6del) hsteps "x" c7t
    c6tClosed (by decide) (by decide)

/-- C8: once a record is terminal, no later operation mutates any of its
fields: the record looked up after any further operations is bitwise the
record at terminal-transition time (the single `expires_at` overwrite happens
inside the close transition itself, while the record is still `active`). -/
theorem c8_terminal_frame (s s' : BrokerState) (h : Steps s s') (id : String)
    (t : Tunnel) (hl : lookupA s.tunnels id = some t)
    (hterm : t.status ≠ .active) : lookupA s'.tunnels id = some t := by
  induction h with
  | refl => exact hl
  | tail hs hstep ih => exact step_frame_terminal hstep id t ih hterm

/-- C8 witness: the closed record of `c6del` survives a billing tick and a
cleanup scan bitwise unchanged. -/
theorem c8_terminal_frame_witness :
    lookupA (cleanupExpiredTunnels 300000 (billActiveTunnels 200000 c6del)).tunnels "x" =
      some c6tClosed := by
  have h2 : Step c6del (billActiveTunnels 200000 c6del) :=
    Step.bill 200000 (by decide)
  have h3 : Step (billActiveTunnels 200000 c6del)
      (cleanupExpiredTunnels 300000 (billActiveTunnels 200000 c6del)) :=
    Step.cleanup 300000 (by decide)
  exact c8_terminal_frame c6del _
    (Relation.ReflTransGen.tail (Relation.ReflTransGen.single h2) h3) "x"
    c6tClosed (by decide) (by decide)

end KeyRoute

namespace KeyRoute

/-- The state reached by the success path of the create handler. -/
theorem createTunnel_success_state (s : BrokerState) (tok : String) (d : JsDur)
    (f : FetchOutcome) (vr : VerifyResponse) (c' : TokenCache) (now : Int)
    (tid priv pub : String) (addOk : Bool)
    (hverify : verifyToken s.tokenCache tok now f = (vr, c'))
    (hv : vr.valid = true) (hca : vr.can_afford ≠ some false) :
    createTunnel s (some tok) (some d) f now tid priv pub addOk =
      (CreateResult.created tid REGION (now + effectiveDuration d * 1000) s.nextClientIP,
       { tunnels := setA s.tunnels tid
           { id := tid, agent_id := vr.agent_id, region := REGION, created_at := now,
             expires_at := now + effectiveDuration d * 1000,
             client_private_key := priv, client_public_key := pub,
             client_ip := s.nextClientIP, status := .active, last_billed_at := now },
         nextClientIP := if s.nextClientIP + 1 > 254 then 2 else s.nextClientIP + 1,
         pendingUsage := s.pendingUsage,
         tokenCache := c',
         peers := if addOk then addPeerTo s.peers pub else s.peers,
         clock := now }) := by
  unfold createTunnel
  dsimp only
  rw [hverify]
  dsimp only
  rw [if_neg (by simp [hv]), if_neg hca]

/-- Distinct tunnel ids used by the allocator traces: the id of creation `i`
is the string of `i + 1` letters `a`. -/
def rep (i : Nat) : String := String.mk (List.replicate (i + 1) 'a')

theorem rep_inj {i j : Nat} (h : rep i = rep j) : i = j := by
  have h2 := congrArg (fun s => s.data.length) h
  simp [rep] at h2
  exact h2

/-- The record created by the `i`-th creation of the allocator trace. -/
def tunRec (i : Nat) : Tunnel :=
  { id := rep i, agent_id := some "a", region := REGION, created_at := 0,
    expires_at := 3600000, client_private_key := "priv", client_public_key := "pub",
    client_ip := 2 + i, status := .active, last_billed_at := 0 }

/-- `k` successive successful one-hour creations from process start, all with
bearer token `"t"` at time 0. -/
def iterCreate : Nat → BrokerState
  | 0 => initState
  | k + 1 =>
    (createTunnel (iterCreate k) (some "t") (some (.num 3600)) (.ok vrA) 0 (rep k)
      "priv" "pub" false).2

/-- Closed form of `iterCreate`. -/
def mkState (k : Nat) : BrokerState :=
  { tunnels := (List.range k).map (fun i => (rep i, tunRec i)),
    nextClientIP := if k = 253 then 2 else k + 2,
    pendingUsage := [],
    tokenCache := if k = 0 then [] else [("t", (vrA, (60000 : Int)))],
    peers := [],
    clock := 0 }

theorem lookupA_reps_notMem (l : List Nat) (n : Nat) (hn : n ∉ l) :
    lookupA (l.map (fun i => (rep i, tunRec i))) (rep n) = none := by
  induction l with
  | nil => rfl
  | cons i t ih =>
    simp only [List.mem_cons, not_or] at hn
    have hne : rep i ≠ rep n := fun hc => hn.1 (rep_inj hc).symm
    simp only [List.map_cons]
    show (if rep i = rep n then some (tunRec i) else _) = none
    rw [if_neg hne]
    exact ih hn.2

theorem lookupA_reps_range (n i : Nat) (h : i < n) :
    lookupA ((List.range n).map (fun j => (rep j, tunRec j))) (rep i) =
      some (tunRec i) := by
  induction n with
  | zero => omega
  | succ n ih =>
    rw [List.range_succ, List.map_append, lookupA_append]
    by_cases hi : i < n
    · rw [ih hi]
    · have hin : i = n := by omega
      subst hin
      rw [lookupA_reps_notMem _ _ (by simp)]
      show lookupA [(rep i, tunRec i)] (rep i) = some (tunRec i)
      simp [lookupA]

theorem verify_mkState (k : Nat) :
    verifyToken (mkState k).tokenCache "t" 0 (.ok vrA) =
      (vrA, [("t", (vrA, (60000 : Int)))]) := by
  by_cases hk : k = 0 <;>
    simp [mkState, hk, verifyToken, lookupCache, lookupA, setA, vrA, TOKEN_CACHE_TTL]

theorem iterCreate_spec : ∀ k, k ≤ 253 → iterCreate k = mkState k := by
  intro k
  induction k with
  | zero => intro _; decide
  | succ k ih =>
    intro hk
    have hk252 : k ≤ 252 := by omega
    have hne253 : k ≠ 253 := by omega
    show (createTunnel (iterCreate k) (some "t") (some (.num 3600)) (.ok vrA) 0 (rep k)
      "priv" "pub" false).2 = mkState (k + 1)
    rw [ih (by omega)]
    rw [createTunnel_success_state (mkState k) "t" (.num 3600) (.ok vrA) vrA
      [("t", (vrA, (60000 : Int)))] 0 (rep k) "priv" "pub" false (verify_mkState k)
      rfl (by simp [vrA])]
    have htun :
        ({ id := rep k, agent_id := vrA.agent_id, region := REGION, created_at := 0,
           expires_at := 0 + effectiveDuration (.num 3600) * 1000,
           client_private_key := "priv", client_public_key := "pub",
           client_ip := (mkState k).nextClientIP, status := .active,
           last_billed_at := 0 } : Tunnel) = tunRec k := by
      simp only [tunRec, Tunnel.mk.injEq, mkState, vrA]
      norm_num [effectiveDuration, if_neg hne253]
      omega
    dsimp only
    rw [htun]
    have hfresh : lookupA ((List.range k).map (fun i => (rep i, tunRec i))) (rep k) =
        none := lookupA_reps_notMem _ _ (by simp)
    have ht : setA (mkState k).tunnels (rep k) (tunRec k) =
        (List.range (k + 1)).map (fun i => (rep i, tunRec i)) := by
      show setA ((List.range k).map (fun i => (rep i, tunRec i))) (rep k) (tunRec k) = _
      rw [setA_fresh_append _ _ _ hfresh, List.range_succ, List.map_append,
        List.map_singleton]
    have hnext : (if (mkState k).nextClientIP + 1 > 254 then 2
          else (mkState k).nextClientIP + 1) =
        (if k + 1 = 253 then 2 else (k + 1) + 2) := by
      show (if (if k = 253 then 2 else k + 2) + 1 > 254 then 2
          else (if k = 253 then 2 else k + 2) + 1) = _
      rw [if_neg hne253]
      by_cases h252 : k = 252
      · subst h252
        decide
      · rw [if_neg (by omega), if_neg (by omega)]
    rw [ht, hnext]
    simp [mkState]

theorem reach_iterCreate : ∀ k, k ≤ 253 → Reachable (iterCreate k) := by
  intro k
  induction k with
  | zero => intro _; exact Relation.ReflTransGen.refl
  | succ k ih =>
    intro hk
    have hk' : k ≤ 253 := by omega
    refine Relation.ReflTransGen.tail (ih hk') ?_
    refine Step.create (some "t") (some (.num 3600)) (.ok vrA) 0 (rep k) "priv" "pub"
      false ?_ ?_
    · rw [iterCreate_spec k hk']
      exact le_refl _
    · rw [iterCreate_spec k hk']
      show lookupA ((List.range k).map (fun i => (rep i, tunRec i))) (rep k) = none
      exact lookupA_reps_notMem _ _ (by simp)

end KeyRoute

namespace KeyRoute

/-- The broker state holding 253 concurrently active tunnels occupying every
assignable octet `.2`–`.254`. -/
def exhaustState : BrokerState := iterCreate 253

/-- The 254th creation, attempted on the full subnet. -/
def create254 : CreateResult × BrokerState :=
  createTunnel exhaustState (some "t") (some (.num 3600)) (.ok vrA) 0 (rep 253)
    "priv" "pub" false

/-- The record stored by the 254th creation: its octet wraps around to `.2`. -/
def tun253 : Tunnel :=
  { id := rep 253, agent_id := some "a", region := REGION, created_at := 0,
    expires_at := 3600000, client_private_key := "priv", client_public_key := "pub",
    client_ip := 2, status := .active, last_billed_at := 0 }

theorem create254_eq :
    create254 = (CreateResult.created (rep 253) REGION 3600000 2,
      { tunnels := ((List.range 253).map (fun i => (rep i, tunRec i))) ++
          [(rep 253, tun253)],
        nextClientIP := 3, pendingUsage := [],
        tokenCache := [("t", (vrA, (60000 : Int)))], peers := [], clock := 0 }) := by
  show createTunnel exhaustState (some "t") (some (.num 3600)) (.ok vrA) 0 (rep 253)
    "priv" "pub" false = _
  have hex : exhaustState = mkState 253 := iterCreate_spec 253 (by norm_num)
  rw [hex]
  rw [createTunnel_success_state (mkState 253) "t" (.num 3600) (.ok vrA) vrA
    [("t", (vrA, (60000 : Int)))] 0 (rep 253) "priv" "pub" false (verify_mkState 253)
    rfl (by simp [vrA])]
  have htun :
      ({ id := rep 253, agent_id := vrA.agent_id, region := REGION, created_at := 0,
         expires_at := 0 + effectiveDuration (.num 3600) * 1000,
         client_private_key := "priv", client_public_key := "pub",
         client_ip := (mkState 253).nextClientIP, status := .active,
         last_billed_at := 0 } : Tunnel) = tun253 := by
    simp only [tun253, Tunnel.mk.injEq, mkState, vrA]
    norm_num [effectiveDuration]
  rw [htun]
  have hfresh : lookupA ((List.range 253).map (fun i => (rep i, tunRec i))) (rep 253) =
      none := lookupA_reps_notMem _ _ (by simp)
  have ht : setA (mkState 253).tunnels (rep 253) tun253 =
      ((List.range 253).map (fun i => (rep i, tunRec i))) ++ [(rep 253, tun253)] := by
    show setA ((List.range 253).map (fun i => (rep i, tunRec i))) (rep 253) tun253 = _
    exact setA_fresh_append _ _ _ hfresh
  rw [ht]
  simp [mkState]
  decide

/-- C4 counterexample: with all 253 assignable octets held by concurrently
active tunnels, the next create does not fail with a resource-exhausted
error — it succeeds (201) and stores a new tunnel record. -/
theorem c4_counterexample :
    Reachable exhaustState ∧
    exhaustState.tunnels.length = 253 ∧
    exhaustState.tunnels.map (fun e => e.2.client_ip) = List.range' 2 253 ∧
    exhaustState.tunnels.all (fun e => e.2.status == Status.active) = true ∧
    create254.1 = CreateResult.created (rep 253) REGION 3600000 2 ∧
    lookupA create254.2.tunnels (rep 253) = some tun253 := by
  have hex : exhaustState = mkState 253 := iterCreate_spec 253 (by norm_num)
  refine ⟨reach_iterCreate 253 (by norm_num), ?_, ?_, ?_, ?_, ?_⟩
  · rw [hex]
    simp [mkState]
  · rw [hex]
    show ((List.range 253).map (fun i => (rep i, tunRec i))).map
      (fun e => e.2.client_ip) = _
    rw [List.map_map, List.range'_eq_map_range]
    rfl
  · rw [hex]
    simp [mkState, List.all_eq_true, tunRec]
  · rw [create254_eq]
  · rw [create254_eq]
    show lookupA (((List.range 253).map (fun i => (rep i, tunRec i))) ++
      [(rep 253, tun253)]) (rep 253) = some tun253
    rw [lookupA_append, lookupA_reps_notMem _ _ (by simp)]
    simp [lookupA]

/-- C4 (amended): on a full subnet the creation succeeds instead of failing:
the response is 201, the new record is appended (all pre-existing records are
bitwise unaffected), and the assigned octet duplicates one held by an
existing active tunnel. -/
theorem c4_wraparound :
    create254.1 = CreateResult.created (rep 253) REGION 3600000 2 ∧
    create254.2.tunnels = exhaustState.tunnels ++ [(rep 253, tun253)] ∧
    lookupA create254.2.tunnels (rep 0) = some (tunRec 0) ∧
    (tunRec 0).status = Status.active ∧
    tun253.client_ip = (tunRec 0).client_ip := by
  have hex : exhaustState = mkState 253 := iterCreate_spec 253 (by norm_num)
  refine ⟨?_, ?_, ?_, rfl, rfl⟩
  · rw [create254_eq]
  · rw [create254_eq, hex]
    rfl
  · rw [create254_eq]
    show lookupA (((List.range 253).map (fun i => (rep i, tunRec i))) ++
      [(rep 253, tun253)]) (rep 0) = some (tunRec 0)
    rw [lookupA_append, lookupA_reps_range 253 0 (by norm_num)]

/-- C5 counterexample: after the allocator wraps, the first tunnel and the
254th tunnel are simultaneously `active` with the same `client_ip`, in a
reachable state. -/
theorem c5_counterexample :
    Reachable create254.2 ∧
    lookupA create254.2.tunnels (rep 0) = some (tunRec 0) ∧
    lookupA create254.2.tunnels (rep 253) = some tun253 ∧
    rep 0 ≠ rep 253 ∧
    (tunRec 0).status = Status.active ∧ tun253.status = Status.active ∧
    (tunRec 0).client_ip = tun253.client_ip := by
  have hex : exhaustState = mkState 253 := iterCreate_spec 253 (by norm_num)
  refine ⟨?_, ?_, ?_, ?_, rfl, rfl, rfl⟩
  · refine Relation.ReflTransGen.tail (reach_iterCreate 253 (by norm_num)) ?_
    refine Step.create (some "t") (some (.num 3600)) (.ok vrA) 0 (rep 253) "priv"
      "pub" false ?_ ?_
    · rw [iterCreate_spec 253 (by norm_num)]
      exact le_refl _
    · rw [iterCreate_spec 253 (by norm_num)]
      show lookupA ((List.range 253).map (fun i => (rep i, tunRec i))) (rep 253) = none
      exact lookupA_reps_notMem _ _ (by simp)
  · rw [create254_eq]
    show lookupA (((List.range 253).map (fun i => (rep i, tunRec i))) ++
      [(rep 253, tun253)]) (rep 0) = some (tunRec 0)
    rw [lookupA_append, lookupA_reps_range 253 0 (by norm_num)]
  · rw [create254_eq]
    show lookupA (((List.range 253).map (fun i => (rep i, tunRec i))) ++
      [(rep 253, tun253)]) (rep 253) = some tun253
    rw [lookupA_append, lookupA_reps_notMem _ _ (by simp)]
    simp [lookupA]
  · intro hc
    have := rep_inj hc
    omega

end KeyRoute

namespace KeyRoute

theorem length_setA_fresh {α : Type} (l : List (String × α)) (k : String) (v : α)
    (h : lookupA l k = none) : (setA l k v).length = l.length + 1 := by
  rw [setA_fresh_append _ _ _ h, List.length_append]
  rfl

/-- Allocator invariant: while at most 253 records exist, the stored octets
are exactly `2, …, length + 1` in creation order and the counter sits just
past them (wrapping at 253). -/
def ipInv (s : BrokerState) : Prop :=
  s.tunnels.length ≤ 253 →
    (s.tunnels.map (fun e => e.2.client_ip) = List.range' 2 s.tunnels.length ∧
     s.nextClientIP = if s.tunnels.length = 253 then 2 else s.tunnels.length + 2)

theorem ipInv_init : ipInv initState := by
  intro _
  exact ⟨rfl, rfl⟩

theorem ipInv_step {s s' : BrokerState} (h : Step s s') (hinv : ipInv s) :
    ipInv s' := by
  cases h with
  | create token body fetch now tid priv pub addOk hnow hfresh =>
    rcases createTunnel_cases s token body fetch now tid priv pub addOk with
      ⟨ht, hn, _⟩ | ⟨tun, ht, _, _, _, hip, hn, _⟩
    · intro hlen
      rw [ht] at hlen ⊢
      rw [hn]
      exact hinv hlen
    · intro hlen
      rw [ht, setA_fresh_append _ _ _ hfresh] at hlen ⊢
      rw [hn]
      rw [List.length_append] at hlen ⊢
      simp only [List.length_singleton] at hlen ⊢
      have hlen' : s.tunnels.length ≤ 252 := by omega
      obtain ⟨hmap, hnext⟩ := hinv (by omega)
      rw [if_neg (by omega)] at hnext
      constructor
      · rw [List.map_append, hmap, List.map_singleton, hip, hnext,
          List.range'_1_concat 2 s.tunnels.length,
          show s.tunnels.length + 2 = 2 + s.tunnels.length from by omega]
      · rw [hnext]
        by_cases h252 : s.tunnels.length = 252
        · rw [h252]
          decide
        · rw [if_neg (by omega), if_neg (by omega)]
  | get token fetch now tid hnow =>
    rcases getTunnel_cases s token fetch now tid with
      ⟨ht, hn, _⟩ | ⟨t0, hl0, _, _, ht, hn, _⟩
    · intro hlen
      rw [ht] at hlen ⊢
      rw [hn]
      exact hinv hlen
    · intro hlen
      rw [ht, length_setA_existing _ _ _ _ hl0] at hlen ⊢
      rw [hn]
      rw [map_snd_setA_existing s.tunnels tid { t0 with status := Status.expired } t0
        (fun t => t.client_ip) hl0 rfl]
      exact hinv hlen
  | del token fetch now tid hnow =>
    rcases deleteTunnel_cases s token fetch now tid with
      ⟨ht, hn, _⟩ | ⟨t0, hl0, _, ht, hn, _⟩
    · intro hlen
      rw [ht] at hlen ⊢
      rw [hn]
      exact hinv hlen
    · intro hlen
      rw [ht, length_setA_existing _ _ _ _ hl0] at hlen ⊢
      rw [hn]
      rw [map_snd_setA_existing s.tunnels tid
        { t0 with status := Status.closed, expires_at := now } t0
        (fun t => t.client_ip) hl0 rfl]
      exact hinv hlen
  | listT token fetch now hnow =>
    obtain ⟨ht, hn, _⟩ := listTunnels_cases s token fetch now
    intro hlen
    rw [ht] at hlen ⊢
    rw [hn]
    exact hinv hlen
  | bill now hnow =>
    intro hlen
    simp only [billActiveTunnels, List.length_map] at hlen ⊢
    have hm : (s.tunnels.map (fun e => (e.1, billOne now e.2))).map
        (fun e => e.2.client_ip) = s.tunnels.map (fun e => e.2.client_ip) := by
      rw [List.map_map]
      exact List.map_congr_left (fun e _ => billOne_client_ip now e.2)
    rw [hm]
    exact hinv hlen
  | cleanup now hnow =>
    intro hlen
    simp only [cleanupExpiredTunnels, List.length_map] at hlen ⊢
    have hm : (s.tunnels.map (fun e => (e.1, expireOne now e.2))).map
        (fun e => e.2.client_ip) = s.tunnels.map (fun e => e.2.client_ip) := by
      rw [List.map_map]
      exact List.map_congr_left (fun e _ => expireOne_client_ip now e.2)
    rw [hm]
    exact hinv hlen
  | report delivered now hnow =>
    exact hinv

theorem ipInv_reachable (s : BrokerState) (h : Reachable s) : ipInv s := by
  induction h with
  | refl => exact ipInv_init
  | tail hs hstep ih => exact ipInv_step hstep ih

/-- C5 (amended): as long as at most 253 tunnels have been created over the
broker's lifetime, the `client_ip` values of distinct records — in particular
of concurrently active tunnels — are pairwise distinct; once a 254th record
exists the allocator has wrapped and duplicates occur (see the
counterexample). -/
theorem c5_distinct_ips (s : BrokerState) (h : Reachable s)
    (hlen : s.tunnels.length ≤ 253) (id1 id2 : String) (t1 t2 : Tunnel)
    (hne : id1 ≠ id2) (h1 : lookupA s.tunnels id1 = some t1)
    (h2 : lookupA s.tunnels id2 = some t2) (ha1 : t1.status = .active)
    (ha2 : t2.status = .active) : t1.client_ip ≠ t2.client_ip := by
  obtain ⟨hmap, _⟩ := ipInv_reachable s h hlen
  have hnodup : (s.tunnels.map (fun e => e.2.client_ip)).Nodup := by
    rw [hmap]
    exact List.nodup_range' 2 s.tunnels.length
  intro hip
  have heq := List.inj_on_of_nodup_map hnodup (lookupA_mem h1) (lookupA_mem h2) hip
  exact hne (congrArg Prod.fst heq)

/-- C5 witness: in the reachable two-tunnel state the two active records have
different octets. -/
theorem c5_distinct_ips_witness : (tunRec 0).client_ip ≠ (tunRec 1).client_ip := by
  have hs : (iterCreate 2).tunnels.length ≤ 253 := by
    rw [iterCreate_spec 2 (by norm_num)]
    decide
  exact c5_distinct_ips (iterCreate 2) (reach_iterCreate 2 (by norm_num)) hs
    (rep 0) (rep 1) (tunRec 0) (tunRec 1) (by decide)
    (by rw [iterCreate_spec 2 (by norm_num)]; decide)
    (by rw [iterCreate_spec 2 (by norm_num)]; decide) rfl rfl

end KeyRoute
